import Mathlib

/-!
Verification development for the `alloy-transport-window` repository: a
browser-wallet (EIP-1193) transport and signer for the Alloy RPC client.
The Rust sources (`src/transport.rs`, `src/signer.rs`, `src/error.rs`) are
shallowly embedded below; theorems check the specification's claims
against this embedding.

Modelling conventions:
- `serde_json::Value` is embedded as `Json`; its number type (`i64`/`u64`
  storage or `f64` storage) as `JNumber`.
- JavaScript values reachable through the wasm boundary are embedded as
  `JsVal`; a JavaScript number (an IEEE-754 double) is modelled by its
  exact rational value.  All doubles produced or inspected by this code
  are finite, so this is lossless.
- The Rust cast `i as f64` (round to nearest, ties to even) is modelled
  exactly on integers by `i64ToF64`.
- The injected provider (`window.ethereum`) is an oracle
  `String → JsVal → Except JsVal JsVal`: method name and parameter value
  in, fulfilled value or rejection value out.
-/

/-- Number storage of `serde_json::Value::Number`: an integer (the `i64`
or `u64` representations collapse to `Int` here) or an `f64`, modelled by
its exact rational value. -/
inductive JNumber where
  | int (i : Int)
  | float (q : ℚ)
deriving DecidableEq, Repr

/-- Embedding of `serde_json::Value`.  Objects are association lists in
iteration order; `serde_json` maps have pairwise-distinct keys. -/
inductive Json where
  | null
  | bool (b : Bool)
  | num (n : JNumber)
  | str (s : String)
  | arr (xs : List Json)
  | obj (kvs : List (String × Json))

/-- Embedding of a JavaScript value (`wasm_bindgen::JsValue`) as far as
this adapter can observe it: null, boolean, finite double (modelled by
its exact rational value), string, array, plain object. -/
inductive JsVal where
  | null
  | bool (b : Bool)
  | num (q : ℚ)
  | str (s : String)
  | arr (xs : List JsVal)
  | obj (kvs : List (String × JsVal))

/-- Round a natural number to the nearest multiple of `2 ^ k`, ties to
the even multiple (the IEEE-754 rounding used by Rust's `as f64` cast). -/
def rnePow2 (m k : Nat) : Nat :=
  let q := m / 2 ^ k
  let r := m % 2 ^ k
  let h := 2 ^ (k - 1)
  if r < h then q * 2 ^ k
  else if h < r then (q + 1) * 2 ^ k
  else if q % 2 = 0 then q * 2 ^ k else (q + 1) * 2 ^ k

/-- Count how many times `m` must be halved before it fits in 53 bits
(fuelled; 128 halvings always suffice for the inputs that arise). -/
def shiftCount : Nat → Nat → Nat
  | 0, _ => 0
  | f + 1, m => if m ≤ 2 ^ 53 - 1 then 0 else 1 + shiftCount f (m / 2)

/-- Exact value of the Rust cast `i as f64` for an integer `i` (both the
`i64` and `u64` branches of `json_to_js` perform this cast).  Magnitudes
up to `2 ^ 53` are exact; beyond that the mantissa is rounded to nearest,
ties to even.  For such magnitudes the result is still an integer. -/
def i64ToF64 (i : Int) : Int :=
  let m := i.natAbs
  if m ≤ 2 ^ 53 then i
  else
    let k := shiftCount 128 m
    let v := rnePow2 m k
    if i < 0 then -(v : Int) else (v : Int)

/-- JavaScript's `Number.isSafeInteger` on a finite double modelled by
its exact rational value: an integer of magnitude at most `2 ^ 53 - 1`. -/
def isSafeIntQ (q : ℚ) : Bool :=
  q.den == 1 && q.num.natAbs ≤ 2 ^ 53 - 1

mutual
/-- Embedding of `WindowTransport::json_to_js` (transport.rs:115-148):
manual conversion of a `serde_json::Value` to a `JsValue`.  Integers take
the `as_i64`/`as_u64` branches and are cast through `f64`; floats pass
through; arrays and objects are rebuilt element-wise.  The only fallible
step in the source is `Reflect::set`, which cannot fail on a fresh plain
object, so the embedding is total. -/
def json_to_js : Json → JsVal
  | .null => .null
  | .bool b => .bool b
  | .num (.int i) => .num ((i64ToF64 i : ℚ))
  | .num (.float q) => .num q
  | .str s => .str s
  | .arr xs => .arr (json_to_js_list xs)
  | .obj kvs => .obj (json_to_js_obj kvs)

/-- Element-wise conversion of an array (the loop in `json_to_js`). -/
def json_to_js_list : List Json → List JsVal
  | [] => []
  | x :: t => json_to_js x :: json_to_js_list t

/-- Entry-wise conversion of an object (the loop in `json_to_js`). -/
def json_to_js_obj : List (String × Json) → List (String × JsVal)
  | [] => []
  | (k, v) :: t => (k, json_to_js v) :: json_to_js_obj t
end

mutual
/-- Embedding of `serde_wasm_bindgen::from_value` into a
`serde_json::Value` (transport.rs:110), the decode half of the host-value
round trip.  Per serde-wasm-bindgen's deserializer, a JavaScript number
that `Number.isSafeInteger` accepts is visited as an integer; any other
finite number is visited as `f64`. -/
def js_to_json : JsVal → Json
  | .null => .null
  | .bool b => .bool b
  | .num q => if isSafeIntQ q then .num (.int q.num) else .num (.float q)
  | .str s => .str s
  | .arr xs => .arr (js_to_json_list xs)
  | .obj kvs => .obj (js_to_json_obj kvs)

/-- Element-wise decode of a JavaScript array. -/
def js_to_json_list : List JsVal → List Json
  | [] => []
  | x :: t => js_to_json x :: js_to_json_list t

/-- Entry-wise decode of a JavaScript object. -/
def js_to_json_obj : List (String × JsVal) → List (String × Json)
  | [] => []
  | (k, v) :: t => (k, js_to_json v) :: js_to_json_obj t
end

example : i64ToF64 (2 ^ 53 + 1) = 2 ^ 53 := by decide
example : i64ToF64 (2 ^ 53) = 2 ^ 53 := by decide
example : i64ToF64 42161 = 42161 := by decide

/-- Insertion into a `serde_json::Map` modelled as an association list:
an existing key has its value replaced in place, a fresh key is appended
in iteration order. -/
def mapInsert : List (String × Json) → String → Json → List (String × Json)
  | [], k, v => [(k, v)]
  | (k1, v1) :: t, k, v =>
    if k1 = k then (k, v) :: t else (k1, v1) :: mapInsert t k v

/-- Key rewrite applied by the `eth_call` normalization loop
(transport.rs:65-71): `"input"` becomes `"data"`, all other keys pass
through. -/
def renameKey (k : String) : String := if k = "input" then "data" else k

/-- Embedding of the object-rebuilding loop of `request_inner`
(transport.rs:64-71): iterate over the entries of the transaction object,
inserting each into a fresh map under its rewritten key. -/
def rebuildObj (o : List (String × Json)) : List (String × Json) :=
  o.foldl (fun acc kv => mapInsert acc (renameKey kv.1) kv.2) []

/-- Embedding of the parameter-normalization step of
`WindowTransport::request_inner` (transport.rs:54-83): for `eth_call`
with a non-empty array parameter whose first element is an object
containing key `"input"`, rebuild that object with `"input"` renamed to
`"data"`; every other method or shape passes through unchanged. -/
def normalizeParams (method : String) (params : Json) : Json :=
  if method = "eth_call" then
    match params with
    | .arr (first :: rest) =>
      match first with
      | .obj o =>
        if (o.lookup "input").isSome then .arr (.obj (rebuildObj o) :: rest)
        else .arr (.obj o :: rest)
      | f => .arr (f :: rest)
    | p => p
  else params

/-- Does the first character list occur as a prefix of the second? -/
def listPrefixEq : List Char → List Char → Bool
  | [], _ => true
  | _ :: _, [] => false
  | a :: t, b :: u => a == b && listPrefixEq t u

/-- Does `pat` occur as a contiguous run inside `s`? -/
def listInfixB (pat : List Char) : List Char → Bool
  | [] => listPrefixEq pat []
  | c :: t => listPrefixEq pat (c :: t) || listInfixB pat t

/-- Rust's `str::contains` for the substring patterns used here. -/
def strContains (s pat : String) : Bool := listInfixB pat.data s.data

/-- Embedding of `WindowError` (error.rs:6-47).  The spec's error
taxonomy calls the absent-host case `NoHost`; the code names it
`NoWallet`.  The `Serde` and `Json` payloads (wrapped foreign error
values) are modelled by their display strings. -/
inductive WindowError where
  | noWallet
  | userRejected
  | rpc (msg : String)
  | js (msg : String)
  | serde (msg : String)
  | json (msg : String)
  | serializationError
  | invalidAddress (msg : String)
  | invalidSignature (msg : String)
  | noAccounts
deriving DecidableEq, Repr

/-- Model of `format!("{:?}", val)` on a `JsValue` (error.rs:61): an
external formatter, rendered shallowly (one tag per value class); no
claim depends on the exact text, only on which `WindowError` constructor
carries it. -/
def jsDebug : JsVal → String
  | .null => "JsValue(null)"
  | .bool true => "JsValue(true)"
  | .bool false => "JsValue(false)"
  | .num q => "JsValue(" ++ toString q ++ ")"
  | .str s => "JsValue(" ++ s ++ ")"
  | .arr _ => "JsValue(Array)"
  | .obj _ => "JsValue(Object)"

/-- Embedding of `impl From<wasm_bindgen::JsValue> for WindowError`
(error.rs:49-63): a rejection value that is a plain JavaScript string is
scanned for the known user-rejection phrasings; any other rejection value
becomes a generic `Js` error carrying its debug representation. -/
def windowErrorOfJs (v : JsVal) : WindowError :=
  match v with
  | .str s =>
    if strContains s "User denied" || strContains s "rejected"
        || strContains s "User rejected" then .userRejected
    else .js s
  | v => .js (jsDebug v)

/-- Display strings of `WindowError` as generated by the `#[error]`
attributes in error.rs. -/
def werrToString : WindowError → String
  | .noWallet => "window.ethereum not found - no Web3 wallet installed"
  | .userRejected => "User rejected the request"
  | .rpc s => "RPC error: " ++ s
  | .js s => "JS error: " ++ s
  | .serde s => "Serialization error: " ++ s
  | .json s => "JSON error: " ++ s
  | .serializationError => "Serialization failed"
  | .invalidAddress s => "Invalid address: " ++ s
  | .invalidSignature s => "Invalid signature: " ++ s
  | .noAccounts => "No accounts available"

/-- Modelled from the spec: the message text of a host rejection value,
used only to state the claim that classification keys on "the
rejection's message text".  A plain string rejection is its own message;
an error-like object carries its message under the `"message"` key. -/
def rejectionMessage : JsVal → Option String
  | .str s => some s
  | .obj kvs =>
    match kvs.lookup "message" with
    | some (.str s) => some s
    | _ => none
  | _ => none

/-- The injected provider object's behaviour: `method`, `params` in,
fulfilled JSON-ish value or rejection value out (the promise returned by
`ethereum.request` at transport.rs:22-24, awaited). -/
abbrev Oracle := String → JsVal → Except JsVal JsVal

/-- Payload actually submitted to the host for a given method and parsed
parameter value (transport.rs:54-95): normalization followed by the
null-to-empty-array rewrite, otherwise `json_to_js`. -/
def sentParams (method : String) (params : Json) : JsVal :=
  match normalizeParams method params with
  | .null => .arr []
  | p => json_to_js p

/-- Embedding of `WindowTransport::request_inner` (transport.rs:53-111):
normalize, convert, invoke the host, decode the fulfilled value back to
JSON, or classify the rejection through `From<JsValue>`. -/
def request_inner (oracle : Oracle) (method : String) (params : Json) :
    Except WindowError Json :=
  match oracle method (sentParams method params) with
  | .ok r => .ok (js_to_json r)
  | .error e => .error (windowErrorOfJs e)

/-- Surface of alloy's `TransportError` used by this code: the
constructor built by `TransportError::local_usage_str` (transport.rs:189)
and, for comparison with the spec's claim, the error-response constructor
that carries a JSON-RPC error code. -/
inductive TransportError where
  | localUsage (msg : String)
  | errorResp (code : Int) (message : String)
deriving DecidableEq, Repr

/-- A structured RPC request as the Service sees it: method name, parsed
parameters (the request's `RawValue` params hold valid JSON by
construction, so parsing is modelled as already done; `None` params map
to `Value::Null` at transport.rs:174), and the request id. -/
structure Req where
  method : String
  params : Option Json
  id : Json

/-- JSON-RPC response object built by the Service (the `json!` blocks at
transport.rs:180-184, 208-212 and 216-223). -/
inductive JResp where
  | success (id : Json) (result : Json)
  | failure (id : Json) (code : Int) (message : String)

/-- Per-item processing of the batch loop (transport.rs:196-227): a host
success becomes a success response, a host failure becomes a per-item
error response with code `-32000` and the error's display string, both
carrying the item's id. -/
def respFor (oracle : Oracle) (r : Req) : JResp :=
  match request_inner oracle r.method (r.params.getD Json.null) with
  | .ok result => .success r.id result
  | .error e => .failure r.id (-32000) (werrToString e)

/-- Embedding of `Service::call` on a single request
(transport.rs:167-190): a host success becomes a single success response;
a host failure becomes `TransportError::local_usage_str(&e.to_string())`. -/
def callSingle (oracle : Oracle) (r : Req) : Except TransportError JResp :=
  match request_inner oracle r.method (r.params.getD Json.null) with
  | .ok result => .ok (.success r.id result)
  | .error e => .error (.localUsage (werrToString e))

/-- Embedding of `Service::call` on a batch (transport.rs:192-232): the
loop pushes one response per request, in order. -/
def callBatch (oracle : Oracle) (reqs : List Req) : List JResp :=
  reqs.map (respFor oracle)

/-- Does the single-request result carry the generic JSON-RPC server
error code `-32000` (the code the spec's claim says tags the wrapped
error)? -/
def isServerErrorResp : Except TransportError JResp → Bool
  | .error (.errorResp c _) => c == -32000
  | _ => false

/-- Embedding of `WindowTransport::new` (transport.rs:42-50): the host
handle is `some ()` when `window.ethereum` resolves, `none` when it is
null or undefined. -/
def transportNew (eth : Option Unit) : Except WindowError Unit :=
  match eth with
  | none => .error .noWallet
  | some _ => .ok ()

/-- Embedding of `Service::call` composed with transport construction:
`send` is only reachable through a `WindowTransport`, so an absent host
fails at `WindowTransport::new` (transport.rs:42-50) before any host
interaction. -/
def sendOp (eth : Option Unit) (oracle : Oracle) (r : Req) :
    Except WindowError (Except TransportError JResp) :=
  (transportNew eth).map (fun _ => callSingle oracle r)

/-- Test for an ASCII hexadecimal digit, as accepted by
`u64::from_str_radix(_, 16)` and by hex decoding of addresses. -/
def isHexDigitChar (c : Char) : Bool :=
  ('0' ≤ c && c ≤ '9') || ('a' ≤ c && c ≤ 'f') || ('A' ≤ c && c ≤ 'F')

/-- Numeric value of an ASCII hexadecimal digit. -/
def hexDigitVal (c : Char) : Nat :=
  if '0' ≤ c && c ≤ '9' then c.toNat - '0'.toNat
  else if 'a' ≤ c && c ≤ 'f' then c.toNat - 'a'.toNat + 10
  else if 'A' ≤ c && c ≤ 'F' then c.toNat - 'A'.toNat + 10
  else 0

/-- Value of a big-endian hexadecimal digit string. -/
def hexVal (l : List Char) : Nat :=
  l.foldl (fun acc c => acc * 16 + hexDigitVal c) 0

/-- Strip one optional `0x` prefix (hex decoding of a 20-byte address
accepts an optional `0x`). -/
def strip0x : List Char → List Char
  | '0' :: 'x' :: t => t
  | l => l

/-- Embedding of `accounts.first().parse::<Address>()` (signer.rs:55-59):
a well-formed address is an optional `0x` prefix followed by exactly 40
hexadecimal digits; the parsed value is the 160-bit integer. -/
def parseAddress (s : String) : Option Nat :=
  let t := strip0x s.data
  if t.length = 40 && t.all isHexDigitChar then some (hexVal t) else none

/-- Rust's `trim_start_matches("0x")`: remove every repetition of the
leading pattern (signer.rs:67). -/
def stripChainPrefix : List Char → List Char
  | '0' :: 'x' :: t => stripChainPrefix t
  | l => l

/-- Embedding of `u64::from_str_radix(_, 16)`: an optional leading `+`,
then a non-empty run of hexadecimal digits whose value fits in 64 bits;
anything else (including overflow) is an error. -/
def parseU64Hex (l : List Char) : Option Nat :=
  let l2 := match l with | '+' :: t => t | t => t
  if !l2.isEmpty && l2.all isHexDigitChar && hexVal l2 < 2 ^ 64 then
    some (hexVal l2)
  else none

/-- Embedding of the chain-id decode at signer.rs:67:
`u64::from_str_radix(chain_id_hex.trim_start_matches("0x"), 16).ok()`. -/
def parseChainId (s : String) : Option Nat :=
  parseU64Hex (stripChainPrefix s.data)

/-- Decode of `serde_wasm_bindgen::from_value::<String>` (signer.rs:65):
succeeds exactly on a JavaScript string. -/
def decodeString : JsVal → Option String
  | .str s => some s
  | _ => none

/-- Element-wise decode of a JavaScript array into Rust strings. -/
def decodeStrings : List JsVal → Option (List String)
  | [] => some []
  | x :: t =>
    match x with
    | .str s => (decodeStrings t).map (fun r => s :: r)
    | _ => none

/-- Decode of `serde_wasm_bindgen::from_value::<Vec<String>>`
(signer.rs:53): succeeds exactly on a JavaScript array of strings. -/
def decodeStringList : JsVal → Option (List String)
  | .arr xs => decodeStrings xs
  | _ => none

/-- Display string of the external hex-decode error wrapped into
`WindowError::InvalidAddress` (signer.rs:59); the exact foreign text is
modelled by a fixed string, which no claim inspects. -/
def addrParseMsg : String := "invalid hex address"

/-- Cached identity built by the account-access handshake
(signer.rs:34-38): active address and optional chain id. -/
structure WindowSigner where
  address : Nat
  chain_id : Option Nat
deriving DecidableEq, Repr

/-- Embedding of `WindowSigner::new` (signer.rs:42-74): resolve the
host, request accounts with an empty array parameter, decode the account
list, take the first account as the address (failing with `NoAccounts`
on an empty list and `InvalidAddress` on a malformed first element),
query the chain id, and decode it gracefully to an optional integer. -/
def signerNew (eth : Option Unit) (oracle : Oracle) :
    Except WindowError WindowSigner :=
  match eth with
  | none => .error .noWallet
  | some _ =>
    match oracle "eth_requestAccounts" (.arr []) with
    | .error e => .error (windowErrorOfJs e)
    | .ok res =>
      match decodeStringList res with
      | none => .error (.serde "invalid accounts payload")
      | some accounts =>
        match accounts.head? with
        | none => .error .noAccounts
        | some first =>
          match parseAddress first with
          | none => .error (.invalidAddress addrParseMsg)
          | some addr =>
            match oracle "eth_chainId" (.arr []) with
            | .error e => .error (windowErrorOfJs e)
            | .ok cres =>
              match decodeString cres with
              | none => .error (.serde "invalid chain id payload")
              | some chainHex =>
                .ok { address := addr, chain_id := parseChainId chainHex }

/-- Hexadecimal digit character for a value below 16 (lower case, as
produced by `hex::encode`). -/
def hexDigitChar (n : Nat) : Char :=
  if n < 10 then Char.ofNat ('0'.toNat + n) else Char.ofNat ('a'.toNat + n - 10)

/-- Model of `hex::encode` on a byte sequence (signer.rs:137). -/
def hexOfBytes (bs : List Nat) : String :=
  String.mk (bs.foldr (fun b acc => hexDigitChar (b / 16 % 16) :: hexDigitChar (b % 16) :: acc) [])

/-- Display of the cached address as passed to the host
(signer.rs:138).  Alloy renders addresses as `0x` plus 40 hex digits
with EIP-55 checksum casing; the casing (a keccak-based detail outside
this model) is rendered lower-case.  No claim inspects this text. -/
def addrDisplay (a : Nat) : String :=
  "0x" ++ String.mk ((List.range 40).map (fun i => hexDigitChar (a / 16 ^ (39 - i) % 16)))

/-- Model of `sig_hex.parse::<Signature>()` (signer.rs:150-152): a
65-byte hex string with optional `0x` prefix; the structured signature is
modelled by its normalized digit string. -/
def parseSignature (s : String) : Option String :=
  let t := strip0x s.data
  if t.length = 130 && t.all isHexDigitChar then some (String.mk t) else none

/-- Embedding of `Signer::sign_message` for an existing signer
(signer.rs:135-153): hex-encode the message, pass it with the displayed
address to `personal_sign`, map a rejection through `From<JsValue>` and
display it (`alloy_signer::Error::other` is modelled by the message
string), and parse the returned hex signature. -/
def signMessageInner (oracle : Oracle) (s : WindowSigner) (msg : List Nat) :
    Except String String :=
  match oracle "personal_sign"
      (.arr [.str ("0x" ++ hexOfBytes msg), .str (addrDisplay s.address)]) with
  | .error e => .error (werrToString (windowErrorOfJs e))
  | .ok r =>
    match decodeString r with
    | none => .error "deserialization error"
    | some sigHex =>
      match parseSignature sigHex with
      | some sg => .ok sg
      | none => .error ("Invalid signature: " ++ sigHex)

/-- Embedding of `sign_message` reached from scratch: a signer exists
only through `WindowSigner::new` (signer.rs:42-47), so an absent host
fails the handshake before any host interaction. -/
def signMessageOp (eth : Option Unit) (oracle : Oracle) (msg : List Nat) :
    Except WindowError (Except String String) :=
  (signerNew eth oracle).map (fun s => signMessageInner oracle s msg)

/-- Host that rejects every request with the plain string `"boom"`. -/
def failingOracle : Oracle := fun _ _ => .error (.str "boom")

/-- Sample request with absent parameters. -/
def exReq : Req := { method := "eth_getBalance", params := none, id := .num (.int 1) }

/-- Host granting two accounts and reporting chain id `0xa4b1`. -/
def exOracle2 : Oracle := fun m _ =>
  if m = "eth_requestAccounts" then
    .ok (.arr [.str "0x00000000000000000000000000000000000000aa",
               .str "0x00000000000000000000000000000000000000bb"])
  else if m = "eth_chainId" then .ok (.str "0xa4b1")
  else .error .null

/-- Host granting an empty account list. -/
def exOracleEmpty : Oracle := fun m _ =>
  if m = "eth_requestAccounts" then .ok (.arr []) else .error .null

/-- C3: for every request that carries no parameters (absent params
become `Value::Null` at transport.rs:174, and explicit null params are
the same value), the payload forwarded to the host object is an empty
array, never a null value, for every method; the host invocation then
proceeds on that empty array. -/
theorem C3_null_params_forwarded_as_empty_array (method : String) (oracle : Oracle) :
    sentParams method Json.null = JsVal.arr [] ∧
    request_inner oracle method Json.null =
      (match oracle method (JsVal.arr []) with
       | .ok r => .ok (js_to_json r)
       | .error e => .error (windowErrorOfJs e)) := by
  have h : sentParams method Json.null = JsVal.arr [] := by
    by_cases hm : method = "eth_call" <;> simp [sentParams, normalizeParams, hm]
  refine ⟨h, ?_⟩
  unfold request_inner
  rw [h]

/-- C6: when no host object is resolvable (`get_ethereum` returns
null/undefined, modelled as `none`), transport construction, a send
reached from scratch, the connect handshake, and a message signature
reached from scratch all fail with the absent-host error
(`WindowError::NoWallet`, the spec's `NoHost`), uniformly in the host
behaviour — so no host interaction is attempted. -/
theorem C6_no_host_fails_everywhere (oracle : Oracle) (r : Req) (msg : List Nat) :
    transportNew none = .error .noWallet ∧
    sendOp none oracle r = .error .noWallet ∧
    signerNew none oracle = .error .noWallet ∧
    signMessageOp none oracle msg = .error .noWallet :=
  ⟨rfl, rfl, rfl, rfl⟩

/-- C4 counterexample: on a failed single request the Service returns
`TransportError::local_usage_str(&e.to_string())` (transport.rs:189), a
local-usage error carrying only the display string — not an error
response tagged with the generic server-error code `-32000`, and with no
request id attached. -/
theorem C4_counterexample :
    callSingle failingOracle exReq =
      .error (.localUsage "JS error: boom") ∧
    isServerErrorResp (callSingle failingOracle exReq) = false := by
  constructor <;> rfl

/-- C4 as amended: for every single request whose host invocation fails,
the send operation wraps the error's display string as a local-usage
transport error; the generic server-error code `-32000` together with
the request id appears only in the batch path's per-item error
responses, not here. -/
theorem C4_single_failure_wraps_string (oracle : Oracle) (r : Req) (e : WindowError)
    (h : request_inner oracle r.method (r.params.getD Json.null) = .error e) :
    callSingle oracle r = .error (.localUsage (werrToString e)) := by
  unfold callSingle
  rw [h]

/-- C4 witness: the amended statement at the sample failing host. -/
theorem C4_witness :
    callSingle failingOracle exReq =
      .error (.localUsage (werrToString (.js "boom"))) :=
  C4_single_failure_wraps_string failingOracle exReq (.js "boom") rfl

/-- C9 counterexample: a host rejection that is an error-like object
whose message text contains "User rejected" is classified as a generic
`Js` error, not as `UserRejected` — the classifier at error.rs:52 looks
only at plain string rejection values. -/
theorem C9_counterexample :
    rejectionMessage (JsVal.obj [("message", JsVal.str "User rejected the request")]) =
      some "User rejected the request" ∧
    strContains "User rejected the request" "User rejected" = true ∧
    windowErrorOfJs (JsVal.obj [("message", JsVal.str "User rejected the request")]) ≠
      WindowError.userRejected := by
  refine ⟨rfl, by decide, ?_⟩
  intro h
  exact absurd h (by decide)

/-- C9 as amended: for every host rejection that is itself a plain
string containing the substring "User rejected", the classification
yields `UserRejected`; rejection values that are not plain strings (for
example error objects carrying the phrase in their message) classify as
generic `Js` errors instead. -/
theorem C9_string_rejection_classified (s : String)
    (h : strContains s "User rejected" = true) :
    windowErrorOfJs (JsVal.str s) = WindowError.userRejected := by
  simp [windowErrorOfJs, h]

/-- C9 witness: the amended statement at a concrete rejection string. -/
theorem C9_witness :
    strContains "User rejected the request" "User rejected" = true ∧
    windowErrorOfJs (JsVal.str "User rejected the request") = WindowError.userRejected :=
  ⟨by decide, C9_string_rejection_classified "User rejected the request" (by decide)⟩

/-- C10: classification as `UserRejected` happens exactly when the
rejection value is a plain string containing one of "User denied",
"rejected", "User rejected"; every non-string rejection value maps to
the generic `Js` error carrying its debug representation and is never
`UserRejected` (error.rs:49-63). -/
theorem C10_only_string_rejections_classified (v : JsVal) :
    (windowErrorOfJs v = WindowError.userRejected ↔
      ∃ s, v = JsVal.str s ∧
        (strContains s "User denied" = true ∨ strContains s "rejected" = true ∨
          strContains s "User rejected" = true)) ∧
    ((∀ s, v ≠ JsVal.str s) → windowErrorOfJs v = WindowError.js (jsDebug v)) := by
  cases v with
  | str s =>
    constructor
    · have hstep : windowErrorOfJs (JsVal.str s) =
          if (strContains s "User denied" || strContains s "rejected"
              || strContains s "User rejected") = true then WindowError.userRejected
          else WindowError.js s := by
        simp [windowErrorOfJs]
      rw [hstep]
      by_cases hc : (strContains s "User denied" || strContains s "rejected"
          || strContains s "User rejected") = true
      · rw [if_pos hc]
        simp only [Bool.or_eq_true] at hc
        constructor
        · intro _
          exact ⟨s, rfl, by tauto⟩
        · intro _; rfl
      · rw [if_neg hc]
        constructor
        · intro h; exact absurd h (by simp)
        · rintro ⟨s2, hs2, hor⟩
          cases hs2
          simp only [Bool.or_eq_true] at hc
          tauto
    · intro h
      exact absurd rfl (h s)
  | null => exact ⟨by constructor <;> (intro h; simp_all [windowErrorOfJs]), fun _ => rfl⟩
  | bool b => exact ⟨by constructor <;> (intro h; simp_all [windowErrorOfJs]), fun _ => rfl⟩
  | num q => exact ⟨by constructor <;> (intro h; simp_all [windowErrorOfJs]), fun _ => rfl⟩
  | arr xs => exact ⟨by constructor <;> (intro h; simp_all [windowErrorOfJs]), fun _ => rfl⟩
  | obj kvs => exact ⟨by constructor <;> (intro h; simp_all [windowErrorOfJs]), fun _ => rfl⟩

/-- C10 witness: a non-string rejection value classifies as the generic
`Js` error with its debug representation. -/
theorem C10_witness :
    windowErrorOfJs JsVal.null = WindowError.js (jsDebug JsVal.null) :=
  (C10_only_string_rejections_classified JsVal.null).2 (fun _ h => JsVal.noConfusion h)

/-- C2: the batch path emits exactly one response per request, in
request order; each entry is the success response for its request's host
result, or a per-item error response with the generic code `-32000` and
the error's display string, always carrying that request's id — so one
item's failure leaves every other item's entry in place. -/
theorem C2_batch_order_and_cardinality (oracle : Oracle) (reqs : List Req) :
    (callBatch oracle reqs).length = reqs.length ∧
    ∀ i (h : i < reqs.length),
      (callBatch oracle reqs)[i]? = some (respFor oracle reqs[i]) ∧
      ((∃ v, request_inner oracle reqs[i].method (reqs[i].params.getD Json.null) = .ok v ∧
          respFor oracle reqs[i] = .success reqs[i].id v) ∨
       (∃ e, request_inner oracle reqs[i].method (reqs[i].params.getD Json.null) = .error e ∧
          respFor oracle reqs[i] = .failure reqs[i].id (-32000) (werrToString e))) := by
  refine ⟨by simp [callBatch], ?_⟩
  intro i h
  constructor
  · simp [callBatch, List.getElem?_eq_getElem, h]
  · cases hri : request_inner oracle reqs[i].method (reqs[i].params.getD Json.null) with
    | ok v => exact Or.inl ⟨v, rfl, by simp [respFor, hri]⟩
    | error e => exact Or.inr ⟨e, rfl, by simp [respFor, hri]⟩

/-- Sample two-request batch: the first succeeds, the second fails. -/
def exReqs : List Req :=
  [{ method := "eth_chainId", params := none, id := .num (.int 1) },
   { method := "eth_getBalance", params := none, id := .num (.int 2) }]

/-- Host that answers `eth_chainId` and rejects everything else. -/
def exOracleHalf : Oracle := fun m _ =>
  if m = "eth_chainId" then .ok (.str "0xa4b1") else .error (.str "boom")

/-- C2 witness: the batch theorem at a concrete two-item batch whose
second item fails. -/
theorem C2_witness :
    (callBatch exOracleHalf exReqs).length = 2 ∧
    (callBatch exOracleHalf exReqs)[1]? = some (respFor exOracleHalf exReqs[1]) := by
  have h := C2_batch_order_and_cardinality exOracleHalf exReqs
  exact ⟨h.1, (h.2 1 (by decide)).1⟩

/-- Decoding a JavaScript array of strings recovers the string list. -/
theorem decodeStrings_map_str (l : List String) :
    decodeStrings (l.map JsVal.str) = some l := by
  induction l with
  | nil => rfl
  | cons a t ih => simp [decodeStrings, ih]

/-- C7: the connect handshake derives the identity's address from the
first element of the returned account list only — the result does not
depend on the remaining elements; an empty list fails with `NoAccounts`,
and a first element that does not parse as a well-formed address fails
with `InvalidAddress` (signer.rs:53-59). -/
theorem C7_connect_first_account (oracle : Oracle) (a : String)
    (rest : List String) (addr : Nat) (chainHex : String) :
    (oracle "eth_requestAccounts" (.arr []) = .ok (.arr []) →
      signerNew (some ()) oracle = .error .noAccounts) ∧
    (oracle "eth_requestAccounts" (.arr []) = .ok (.arr ((a :: rest).map JsVal.str)) →
      parseAddress a = none →
      signerNew (some ()) oracle = .error (.invalidAddress addrParseMsg)) ∧
    (oracle "eth_requestAccounts" (.arr []) = .ok (.arr ((a :: rest).map JsVal.str)) →
      parseAddress a = some addr →
      oracle "eth_chainId" (.arr []) = .ok (.str chainHex) →
      signerNew (some ()) oracle = .ok ⟨addr, parseChainId chainHex⟩) := by
  have hd : decodeStrings (JsVal.str a :: rest.map JsVal.str) = some (a :: rest) := by
    simpa using decodeStrings_map_str (a :: rest)
  refine ⟨?_, ?_, ?_⟩
  · intro hacc
    simp [signerNew, hacc, decodeStringList, decodeStrings]
  · intro hacc haddr
    simp [signerNew, hacc, decodeStringList, hd, haddr]
  · intro hacc haddr hchain
    simp [signerNew, hacc, decodeStringList, hd, haddr, hchain, decodeString]

/-- C7 witness: connect at a host granting zero accounts fails with
`NoAccounts`. -/
theorem C7_witness :
    signerNew (some ()) exOracleEmpty = .error .noAccounts :=
  (C7_connect_first_account exOracleEmpty "" [] 0 "").1 rfl

/-- C8: the connect handshake decodes the host's hex-encoded chain id to
an integer through `parseChainId` — concretely `"0xa4b1"` decodes to
`42161` — and stores `parseChainId chainHex` as the cached chain id, so
a chain-id string whose decode fails yields `chain_id = none` while the
connect itself still succeeds (signer.rs:61-73). -/
theorem C8_chain_id_decode (oracle : Oracle) (a : String) (rest : List String)
    (addr : Nat) (chainHex : String)
    (hacc : oracle "eth_requestAccounts" (.arr []) = .ok (.arr ((a :: rest).map JsVal.str)))
    (haddr : parseAddress a = some addr)
    (hchain : oracle "eth_chainId" (.arr []) = .ok (.str chainHex)) :
    signerNew (some ()) oracle = .ok ⟨addr, parseChainId chainHex⟩ ∧
    parseChainId "0xa4b1" = some 42161 ∧
    (parseChainId chainHex = none →
      signerNew (some ()) oracle = .ok ⟨addr, none⟩) := by
  have hd : decodeStrings (JsVal.str a :: rest.map JsVal.str) = some (a :: rest) := by
    simpa using decodeStrings_map_str (a :: rest)
  have hmain : signerNew (some ()) oracle = .ok ⟨addr, parseChainId chainHex⟩ := by
    simp [signerNew, hacc, decodeStringList, hd, haddr, hchain, decodeString]
  refine ⟨hmain, by decide, ?_⟩
  intro hnone
  rw [hmain, hnone]

mutual
/-- Values on which the host-value round trip is lossless: integers
within the JavaScript safe range and floats that are not safe integers
(so the decoder keeps them as floats), recursively. -/
def goodJson : Json → Bool
  | .null => true
  | .bool _ => true
  | .num (.int i) => i.natAbs ≤ 2 ^ 53 - 1
  | .num (.float q) => !isSafeIntQ q
  | .str _ => true
  | .arr xs => goodJsonList xs
  | .obj kvs => goodJsonObj kvs

/-- Element-wise goodness of an array. -/
def goodJsonList : List Json → Bool
  | [] => true
  | x :: t => goodJson x && goodJsonList t

/-- Entry-wise goodness of an object. -/
def goodJsonObj : List (String × Json) → Bool
  | [] => true
  | (_, v) :: t => goodJson v && goodJsonObj t
end

mutual
/-- Round trip on good values. -/
theorem roundtrip_good : ∀ v : Json, goodJson v = true → js_to_json (json_to_js v) = v
  | .null, _ => rfl
  | .bool _, _ => rfl
  | .num (.int i), h => by
    have hb : i.natAbs ≤ 2 ^ 53 - 1 := by
      have := h
      unfold goodJson at this
      exact of_decide_eq_true this
    have hle : i.natAbs ≤ 2 ^ 53 := le_trans hb (by norm_num)
    have hcast : i64ToF64 i = i := by
      unfold i64ToF64
      rw [if_pos hle]
    show js_to_json (.num ((i64ToF64 i : ℚ))) = .num (.int i)
    rw [hcast]
    unfold js_to_json
    have hsafe : isSafeIntQ ((i : ℚ)) = true := by
      simp only [isSafeIntQ, Rat.den_intCast, Rat.num_intCast, beq_self_eq_true,
        Bool.true_and, decide_eq_true_eq]
      exact hb
    rw [if_pos hsafe]
    simp [Rat.num_intCast]
  | .num (.float q), h => by
    have hb : isSafeIntQ q = false := by
      unfold goodJson at h
      simpa using h
    show js_to_json (.num q) = .num (.float q)
    unfold js_to_json
    rw [if_neg (by simp [hb])]
  | .str _, _ => rfl
  | .arr xs, h => by
    have hl : goodJsonList xs = true := by
      unfold goodJson at h
      exact h
    show Json.arr (js_to_json_list (json_to_js_list xs)) = Json.arr xs
    rw [roundtrip_good_list xs hl]
  | .obj kvs, h => by
    have hl : goodJsonObj kvs = true := by
      unfold goodJson at h
      exact h
    show Json.obj (js_to_json_obj (json_to_js_obj kvs)) = Json.obj kvs
    rw [roundtrip_good_obj kvs hl]

/-- Round trip on lists of good values. -/
theorem roundtrip_good_list :
    ∀ xs : List Json, goodJsonList xs = true →
      js_to_json_list (json_to_js_list xs) = xs
  | [], _ => rfl
  | x :: t, h => by
    have hx : goodJson x = true ∧ goodJsonList t = true := by
      unfold goodJsonList at h
      simpa using h
    show js_to_json (json_to_js x) :: js_to_json_list (json_to_js_list t) = x :: t
    rw [roundtrip_good x hx.1, roundtrip_good_list t hx.2]

/-- Round trip on objects with good values. -/
theorem roundtrip_good_obj :
    ∀ kvs : List (String × Json), goodJsonObj kvs = true →
      js_to_json_obj (json_to_js_obj kvs) = kvs
  | [], _ => rfl
  | (k, v) :: t, h => by
    have hx : goodJson v = true ∧ goodJsonObj t = true := by
      unfold goodJsonObj at h
      simpa using h
    show (k, js_to_json (json_to_js v)) :: js_to_json_obj (json_to_js_obj t) = (k, v) :: t
    rw [roundtrip_good v hx.1, roundtrip_good_obj t hx.2]
end

/-- C5 counterexample: the encoder casts every integer through `f64`
(transport.rs:121-123), which collides `2 ^ 53 + 1` with `2 ^ 53` — so
no decoder can reproduce both — and the decoder turns the resulting
number into a float, not the original integer; dually, the
integer-valued float `3.0` decodes as the integer `3`, a different
`serde_json` value. -/
theorem C5_counterexample :
    json_to_js (Json.num (JNumber.int (2 ^ 53 + 1))) =
      json_to_js (Json.num (JNumber.int (2 ^ 53))) ∧
    Json.num (JNumber.int (2 ^ 53 + 1)) ≠ Json.num (JNumber.int (2 ^ 53)) ∧
    js_to_json (json_to_js (Json.num (JNumber.int (2 ^ 53 + 1)))) ≠
      Json.num (JNumber.int (2 ^ 53 + 1)) ∧
    js_to_json (json_to_js (Json.num (JNumber.float 3))) = Json.num (JNumber.int 3) ∧
    Json.num (JNumber.float 3) ≠ Json.num (JNumber.int 3) := by
  refine ⟨rfl, ?_, ?_, rfl, ?_⟩
  · intro h
    injection h with h1
    injection h1 with h2
    exact absurd h2 (by decide)
  · intro h
    have h2 : Json.num (JNumber.float (((2 ^ 53 : Int) : ℚ))) =
        Json.num (JNumber.int (2 ^ 53 + 1)) := h
    injection h2 with h3
    exact JNumber.noConfusion h3
  · intro h
    injection h with h1
    exact JNumber.noConfusion h1

/-- C5 as amended: encoding to the host-value representation and
decoding back reproduces the original value for null, booleans, strings,
integers of magnitude at most `2 ^ 53 - 1`, floats that are not
integer-valued safe integers, and arrays and nested objects of such
values; integers beyond the safe range collide at the encoding cast, and
integer-valued floats come back as integers. -/
theorem C5_roundtrip_on_safe_values (v : Json) (h : goodJson v = true) :
    js_to_json (json_to_js v) = v :=
  roundtrip_good v h

/-- C5 witness: the round trip at a concrete nested value exercising
every good constructor. -/
theorem C5_witness :
    goodJson (Json.arr [Json.null, Json.bool true, Json.num (JNumber.int 7),
        Json.num (JNumber.float (mkRat 5 2)), Json.str "a",
        Json.obj [("k", Json.num (JNumber.int (-3)))]]) = true ∧
    js_to_json (json_to_js (Json.arr [Json.null, Json.bool true,
        Json.num (JNumber.int 7), Json.num (JNumber.float (mkRat 5 2)), Json.str "a",
        Json.obj [("k", Json.num (JNumber.int (-3)))]])) =
      Json.arr [Json.null, Json.bool true, Json.num (JNumber.int 7),
        Json.num (JNumber.float (mkRat 5 2)), Json.str "a",
        Json.obj [("k", Json.num (JNumber.int (-3)))]] :=
  ⟨by decide, C5_roundtrip_on_safe_values _ (by decide)⟩

/-- Inserting under a key absent from the map appends the binding. -/
theorem mapInsert_lookup_none (m : List (String × Json)) (k : String) (v : Json)
    (h : m.lookup k = none) : mapInsert m k v = m ++ [(k, v)] := by
  induction m with
  | nil => rfl
  | cons p t ih =>
    obtain ⟨k1, v1⟩ := p
    simp only [List.lookup] at h
    by_cases hk : k = k1
    · simp [hk] at h
    · have hk2 : (k == k1) = false := by simpa using hk
      rw [hk2] at h
      have hne : ¬(k1 = k) := fun he => hk he.symm
      simp only [mapInsert, if_neg hne, List.cons_append, List.cons.injEq, true_and]
      exact ih h

/-- A key that fails lookup on the left part of an append is looked up
on the right part. -/
theorem lookup_append_left_none (l1 l2 : List (String × Json)) (a : String)
    (h : l1.lookup a = none) : (l1 ++ l2).lookup a = l2.lookup a := by
  induction l1 with
  | nil => rfl
  | cons p t ih =>
    obtain ⟨k1, v1⟩ := p
    simp only [List.lookup] at h ⊢
    by_cases hk : a = k1
    · simp [hk] at h
    · have hk2 : (a == k1) = false := by simpa using hk
      rw [hk2] at h ⊢
      exact ih h

/-- The rebuild loop over entries with pairwise-distinct rewritten keys
appends each renamed binding in iteration order. -/
theorem foldl_mapInsert_fresh (o : List (String × Json)) :
    ∀ acc : List (String × Json),
      (∀ kv ∈ o, acc.lookup (renameKey kv.1) = none) →
      ((o.map Prod.fst).map renameKey).Nodup →
      o.foldl (fun acc kv => mapInsert acc (renameKey kv.1) kv.2) acc
        = acc ++ o.map (fun kv => (renameKey kv.1, kv.2)) := by
  induction o with
  | nil => intro acc _ _; simp
  | cons p t ih =>
    intro acc hfresh hnodup
    obtain ⟨k, v⟩ := p
    have h1 : acc.lookup (renameKey k) = none := hfresh (k, v) (by simp)
    rw [List.foldl_cons, mapInsert_lookup_none acc _ _ h1]
    simp only [List.map_cons, List.nodup_cons] at hnodup
    have hfresh2 : ∀ kv ∈ t, (acc ++ [(renameKey k, v)]).lookup (renameKey kv.1) = none := by
      intro kv hm
      have hne : renameKey kv.1 ≠ renameKey k := by
        intro he
        exact hnodup.1 (he ▸ List.mem_map_of_mem renameKey
          (List.mem_map_of_mem Prod.fst hm))
      rw [lookup_append_left_none acc _ _ (hfresh kv (List.mem_cons_of_mem _ hm))]
      simp only [List.lookup]
      have hb : (renameKey kv.1 == renameKey k) = false := by simpa using hne
      rw [hb]
    rw [ih (acc ++ [(renameKey k, v)]) hfresh2 hnodup.2]
    simp

/-- The rebuilt object is the entry-wise key rename whenever the
rewritten keys are pairwise distinct. -/
theorem rebuildObj_eq_map (o : List (String × Json))
    (hnodup : ((o.map Prod.fst).map renameKey).Nodup) :
    rebuildObj o = o.map (fun kv => (renameKey kv.1, kv.2)) := by
  have h := foldl_mapInsert_fresh o [] (fun kv _ => rfl) hnodup
  simpa [rebuildObj] using h

/-- Key rewriting preserves distinctness when `"data"` is not among the
keys. -/
theorem renamed_keys_nodup (ks : List String) (h : ks.Nodup)
    (hd : "data" ∉ ks) : (ks.map renameKey).Nodup := by
  refine h.map_on ?_
  intro x hx y hy hxy
  unfold renameKey at hxy
  by_cases hxi : x = "input" <;> by_cases hyi : y = "input"
  · rw [hxi, hyi]
  · rw [if_pos hxi, if_neg hyi] at hxy
    exact absurd (hxy ▸ hy) hd
  · rw [if_neg hxi, if_pos hyi] at hxy
    exact absurd (hxy ▸ hx) hd
  · rwa [if_neg hxi, if_neg hyi] at hxy

/-- A key whose lookup fails is not among the map's keys. -/
theorem not_mem_keys_of_lookup_none (o : List (String × Json)) (a : String)
    (h : o.lookup a = none) : a ∉ o.map Prod.fst := by
  induction o with
  | nil => simp
  | cons p t ih =>
    obtain ⟨k1, v1⟩ := p
    simp only [List.lookup] at h
    by_cases hk : a = k1
    · simp [hk] at h
    · have hk2 : (a == k1) = false := by simpa using hk
      rw [hk2] at h
      simp only [List.map_cons, List.mem_cons]
      rintro (he | hm)
      · exact hk he
      · exact ih h hm

/-- C1 counterexample: an `eth_call` transaction object carrying both
`"data"` and `"input"` does not keep its other keys intact — the renamed
`"input"` value overwrites the pre-existing `"data"` entry
(transport.rs:64-71), so the object shrinks from two keys to one and the
original `"data"` value is lost. -/
theorem C1_counterexample :
    normalizeParams "eth_call"
        (Json.arr [Json.obj [("data", Json.num (JNumber.int 1)),
                             ("input", Json.num (JNumber.int 2))]])
      = Json.arr [Json.obj [("data", Json.num (JNumber.int 2))]] ∧
    ([("data", Json.num (JNumber.int 1)), ("input", Json.num (JNumber.int 2))] :
        List (String × Json)).lookup "data" = some (Json.num (JNumber.int 1)) ∧
    ([("data", Json.num (JNumber.int 2))] :
        List (String × Json)).lookup "data" = some (Json.num (JNumber.int 2)) ∧
    Json.num (JNumber.int 1) ≠ Json.num (JNumber.int 2) := by
  refine ⟨rfl, rfl, rfl, ?_⟩
  intro h
  injection h with h1
  injection h1 with h2
  exact absurd h2 (by decide)

/-- C1 as amended: `eth_call` normalization renames `"input"` to
`"data"` in the first array element, preserving all other keys and
elements, provided the object's keys are distinct and `"data"` is not
already present (if it is, the renamed value overwrites it); every other
method's parameters, and `eth_call` parameters of any other shape, pass
through unmodified. -/
theorem C1_eth_call_rename (method : String) (params : Json)
    (o : List (String × Json)) (first : Json) (rest : List Json) :
    (method ≠ "eth_call" → normalizeParams method params = params) ∧
    (normalizeParams "eth_call" (Json.arr []) = Json.arr []) ∧
    ((∀ xs : List Json, params ≠ Json.arr xs) →
      normalizeParams "eth_call" params = params) ∧
    ((∀ o2 : List (String × Json), first ≠ Json.obj o2) →
      normalizeParams "eth_call" (Json.arr (first :: rest)) = Json.arr (first :: rest)) ∧
    (o.lookup "input" = none →
      normalizeParams "eth_call" (Json.arr (Json.obj o :: rest)) =
        Json.arr (Json.obj o :: rest)) ∧
    ((o.lookup "input").isSome = true → (o.map Prod.fst).Nodup →
      o.lookup "data" = none →
      normalizeParams "eth_call" (Json.arr (Json.obj o :: rest)) =
        Json.arr (Json.obj (o.map (fun kv => (renameKey kv.1, kv.2))) :: rest)) := by
  refine ⟨?_, rfl, ?_, ?_, ?_, ?_⟩
  · intro h
    simp [normalizeParams, h]
  · intro h
    cases params with
    | arr xs => exact absurd rfl (h xs)
    | null => rfl
    | bool b => rfl
    | num n => rfl
    | str s => rfl
    | obj kvs => rfl
  · intro h
    cases first with
    | obj o2 => exact absurd rfl (h o2)
    | null => rfl
    | bool b => rfl
    | num n => rfl
    | str s => rfl
    | arr xs => rfl
  · intro h
    simp [normalizeParams, h]
  · intro hin hnodup hdata
    have hrn : ((o.map Prod.fst).map renameKey).Nodup :=
      renamed_keys_nodup _ hnodup (not_mem_keys_of_lookup_none o "data" hdata)
    simp [normalizeParams, hin, rebuildObj_eq_map o hrn]

/-- C1 witness: the amended rename at a concrete `eth_call` request with
distinct keys and no pre-existing `"data"`. -/
theorem C1_witness :
    normalizeParams "eth_call"
        (Json.arr [Json.obj [("from", Json.str "0x1"), ("input", Json.str "0xab")],
                   Json.str "latest"])
      = Json.arr [Json.obj [("from", Json.str "0x1"), ("data", Json.str "0xab")],
                  Json.str "latest"] := by
  have h := (C1_eth_call_rename "eth_call" Json.null
      [("from", Json.str "0x1"), ("input", Json.str "0xab")]
      Json.null [Json.str "latest"]).2.2.2.2.2 rfl (by decide) rfl
  simpa [renameKey] using h

/-- C8 witness: connect at the sample host yields address `0xaa` and
chain id `42161`. -/
theorem C8_witness :
    signerNew (some ()) exOracle2 = .ok ⟨170, some 42161⟩ := by
  have h := C8_chain_id_decode exOracle2
      "0x00000000000000000000000000000000000000aa"
      ["0x00000000000000000000000000000000000000bb"] 170 "0xa4b1"
      rfl (by decide) rfl
  simpa using h.1

